import Mathlib

/-!
Verification of the crawlwright crawler core

A shallow embedding of the crawlwright repository (persistent request queue,
retry handling, robots.txt politeness checking, and configuration validation),
together with theorems settling the specification claims against the code.

Source files embedded:
- `src/crawlwright/request_queue.py` (`RequestQueue`, `assert_url_valid`)
- `src/crawlwright/util.py` (`get_robots_txt_url`)
- `src/crawlwright/robots_txt.py` (`BaseRobotsTxtChecker`, `RobotsTxtChecker`)
- `src/crawlwright/options.py` (`CrawlerOptions` and its validator)
- `src/crawlwright/crawler.py` (`Crawlwright`: the worker loop `crawl`,
  `_handle_failed_request`, `_add_request`/`_add_requests`, checker selection)
-/

/-- Modelled from the spec: `CrawlRequest` is imported by `crawler.py` from
`crawlwright.request_queue` but its definition is absent from the sources;
the spec's data model gives `url` (string), `label` (optional tag),
`retries` (integer, starts at 0), `referer` (optional string).
`retries` is an `Int` because Python integers are unbounded and the
`max_retries` option it is compared against is an unvalidated `int`. -/
structure CrawlRequest where
  url : String
  label : Option String
  retries : Int
  referer : Option String
deriving Repr, DecidableEq

/-- Model of the external `validators.url` library call used by
`assert_url_valid` (request_queue.py line 14).  The library accepts
scheme://host URLs; we model the fragment relevant to the claims: the string
must carry an `http://` or `https://` scheme followed by a nonempty remainder.
`"not-a-url"` is rejected, well-formed absolute http(s) URLs are accepted. -/
def validators_url (url : String) : Bool :=
  (("http://".data).isPrefixOf url.data && url.data.length > 7) ||
    (("https://".data).isPrefixOf url.data && url.data.length > 8)

/-- Errors of the queue layer.  `validation` models the `ValueError` raised by
`assert_url_valid` (the spec's `ValidationError`); `emptyQueue` models the
`KeyError` raised by `Index.popitem` on an empty index (the spec's
`EmptyQueueError`). -/
inductive QErr where
  | validation
  | emptyQueue
deriving Repr, DecidableEq

/-- Model of a `diskcache.Index`: an insertion-ordered string-keyed mapping,
as an association list with unique keys.  `Index.get` is dict-style `get`
(returns `none` when the key is absent). -/
def Index.get {α : Type} (idx : List (String × α)) (k : String) : Option α :=
  (idx.find? (fun p => p.1 == k)).map (fun p => p.2)

/-- Keys of an index, in insertion order. -/
def Index.keys {α : Type} (idx : List (String × α)) : List String :=
  idx.map (fun p => p.1)

/-- Assignment `idx[k] = v` on a `diskcache.Index`: update in place when the key exists,
append at the back otherwise (insertion order is preserved). -/
def Index.set {α : Type} (idx : List (String × α)) (k : String) (v : α) :
    List (String × α) :=
  if k ∈ Index.keys idx then
    idx.map (fun p => if p.1 = k then (k, v) else p)
  else
    idx ++ [(k, v)]

/-- Embedding of `RequestQueue` (request_queue.py lines 26-77): three durable partitions —
`requests` (pending, storing the full record), `failed` and `complete`
(storing a `None` marker or a record) — plus the in-memory known-url set
`urls`, modelled as a duplicate-free list. -/
structure RequestQueue where
  requests : List (String × CrawlRequest)
  failed : List (String × Option CrawlRequest)
  complete : List (String × Option CrawlRequest)
  urls : List String
deriving Repr, DecidableEq

/-- A freshly created queue over an empty storage directory. -/
def RequestQueue.init : RequestQueue :=
  ⟨[], [], [], []⟩

/-- Model of `len(self)` and the `size` property: cardinality of the pending partition
only (request_queue.py lines 40-45). -/
def RequestQueue.size (q : RequestQueue) : Nat :=
  q.requests.length

/-- The `empty` property: `len(self) == 0` (request_queue.py lines 51-53). -/
def RequestQueue.empty (q : RequestQueue) : Bool :=
  q.size == 0

/-- Embedding of `get_all_urls` (request_queue.py lines 55-56): the set of URLs appearing
in any of the three partitions, modelled as a deduplicated list. -/
def RequestQueue.get_all_urls (q : RequestQueue) : List String :=
  (Index.keys q.requests ++ Index.keys q.failed ++ Index.keys q.complete).dedup

/-- Python `set.add` on the known-url set. -/
def setAdd (s : List String) (u : String) : List String :=
  if u ∈ s then s else s ++ [u]

/-- Embedding of `RequestQueue.add` (request_queue.py lines 58-63): no-op when the url is
already known; otherwise validate (raising `ValidationError` before any
mutation when malformed), insert into pending, record the url as known.
The pair returned is (state after the call, exception raised if any);
on an exception the state is the original one because the source raises
before mutating. -/
def RequestQueue.add (q : RequestQueue) (r : CrawlRequest) :
    RequestQueue × Option QErr :=
  if r.url ∈ q.urls then
    (q, none)
  else if validators_url r.url = false then
    (q, some QErr.validation)
  else
    ({ q with requests := Index.set q.requests r.url r,
              urls := setAdd q.urls r.url }, none)

/-- Embedding of `RequestQueue.extend` (request_queue.py lines 65-67): `add` per item in
order; an exception aborts the loop, keeping the items added so far. -/
def RequestQueue.extend (q : RequestQueue) :
    List CrawlRequest → RequestQueue × Option QErr
  | [] => (q, none)
  | r :: rs =>
    match q.add r with
    | (q', none) => q'.extend rs
    | (q', some e) => (q', some e)

/-- Embedding of `RequestQueue.pop` (request_queue.py lines 69-71):
`self.requests.popitem(last=False)` removes and returns the oldest-inserted
pending entry; on an empty index it raises (modelled as `emptyQueue`).
The known-url set is NOT touched. -/
def RequestQueue.pop (q : RequestQueue) :
    Except QErr (CrawlRequest × RequestQueue) :=
  match q.requests with
  | [] => Except.error QErr.emptyQueue
  | (_, r) :: rest => Except.ok (r, { q with requests := rest })

/-- Embedding of `RequestQueue.clear` (request_queue.py lines 73-77): empties the known-url
set and all three partitions. -/
def RequestQueue.clear (q : RequestQueue) : RequestQueue :=
  { q with urls := [], requests := [], failed := [], complete := [] }

/-! URL parsing (model of `urllib.parse.urlparse`) and `util.py` -/

/-- Model of `urlparse(url).scheme` for the absolute URLs the crawler handles: the text
before a `://` separator (empty when no such separator follows the head of
the string, as for strings without a scheme). -/
def urlparse_scheme (url : String) : String :=
  let cs := url.data
  let s := cs.takeWhile (fun c => !(c == ':'))
  if ("://".data).isPrefixOf (cs.drop s.length) then ⟨s⟩ else ""

/-- Model of `urlparse(url).netloc`: the text between `://` and the next `/` (empty
when the string has no `://` separator). -/
def urlparse_netloc (url : String) : String :=
  let cs := url.data
  let s := cs.takeWhile (fun c => !(c == ':'))
  if ("://".data).isPrefixOf (cs.drop s.length) then
    ⟨(cs.drop (s.length + 3)).takeWhile (fun c => !(c == '/'))⟩
  else ""

/-- Embedding of `get_robots_txt_url` (util.py lines 11-12):
`urlparse(page_url).scheme + "://" + urlparse(page_url).netloc + "/robots.txt"`. -/
def get_robots_txt_url (page_url : String) : String :=
  urlparse_scheme page_url ++ "://" ++ urlparse_netloc page_url ++ "/robots.txt"

/-! Robots.txt checkers (`robots_txt.py`)

The checkers are embedded in state-passing style.  External collaborators are
parameters: `net : String → String` models `requests.get(u).text` (the body
the network returns for URL `u`), and `protego : String → String → String →
Bool` models `Protego.parse(robots_txt).can_fetch(url, user_agent)`.
Each `can_fetch` returns `(answer, checker state after the call, list of URLs
fetched over the network during the call)`. -/

/-- Embedding of `BaseRobotsTxtChecker` (robots_txt.py lines 9-14): `__init__` stores
nothing, `can_fetch` always returns `True`. -/
structure BaseRobotsTxtChecker where
  cache_path : String
deriving Repr, DecidableEq

/-- Embedding of `BaseRobotsTxtChecker.can_fetch`: returns `True`, performs no I/O and no
caching. -/
def BaseRobotsTxtChecker.can_fetch (c : BaseRobotsTxtChecker)
    (url user_agent : String) : Bool × BaseRobotsTxtChecker × List String :=
  let _ := url
  let _ := user_agent
  (true, c, [])

/-- Embedding of `RobotsTxtChecker` (robots_txt.py lines 17-28): holds a `diskcache.Index`
cache (`storage`). -/
structure RobotsTxtChecker where
  storage : List (String × String)
deriving Repr, DecidableEq

/-- Python truthiness of `self.storage.get(url)` in the walrus test: a cached
empty string is falsy and counts as a miss. -/
def truthyGet (o : Option String) : Option String :=
  match o with
  | some s => if s = "" then none else some s
  | none => none

/-- Embedding of `RobotsTxtChecker.can_fetch` (robots_txt.py lines 22-28), exactly as the
source: `base_url = urlparse(url).netloc`; the cache is LOOKED UP under the
full `url`; on a hit the cached text is parsed and evaluated with no fetch;
on a miss `requests.get(url).text` is fetched (the page URL itself, not the
robots.txt URL) and STORED under `base_url`, then parsed and evaluated. -/
def RobotsTxtChecker.can_fetch (net : String → String)
    (protego : String → String → String → Bool) (c : RobotsTxtChecker)
    (url user_agent : String) : Bool × RobotsTxtChecker × List String :=
  let base_url := urlparse_netloc url
  match truthyGet (Index.get c.storage url) with
  | some robots_txt => (protego robots_txt url user_agent, c, [])
  | none =>
    let robots_txt := net url
    (protego robots_txt url user_agent,
      ⟨Index.set c.storage base_url robots_txt⟩, [url])

/-- A network stub for evaluating the caching checker: every URL resolves to
one fixed, fully permissive robots.txt body. -/
def constNet : String → String :=
  fun _ => "User-agent: *"

/-- A parser stub for evaluating the caching checker: permission is granted
for every document, URL and user agent. -/
def allowAllProtego : String → String → String → Bool :=
  fun _ _ _ => true

/-! Configuration (`options.py`) -/

/-- Model of `ConfigurationError`: the pydantic validation error raised at
`CrawlerOptions` construction. -/
inductive ConfigError where
  | configuration
deriving Repr, DecidableEq

/-- Embedding of `CrawlerOptions` (options.py lines 8-18): `concurrency`,
`request_limit = (count, periodSeconds)`, `max_retries`, `obey_robots_txt`. -/
structure CrawlerOptions where
  concurrency : Int
  request_limit : Int × Int
  max_retries : Int
  obey_robots_txt : Bool
deriving Repr, DecidableEq

/-- Construction of `CrawlerOptions` with its pydantic validation
(options.py lines 14-18): the only validator checks `concurrency < 1`;
no field validator constrains `max_retries`. -/
def CrawlerOptions.validate (concurrency : Int) (request_limit : Int × Int)
    (max_retries : Int) (obey_robots_txt : Bool) :
    Except ConfigError CrawlerOptions :=
  if concurrency < 1 then Except.error ConfigError.configuration
  else Except.ok ⟨concurrency, request_limit, max_retries, obey_robots_txt⟩

/-! Crawler (`crawler.py`) -/

/-- The two checker variants `Crawlwright.__init__` can install. -/
inductive RobotsCheckerKind where
  | permissive
  | caching
deriving Repr, DecidableEq

/-- Checker selection in `Crawlwright.__init__` (crawler.py lines 48-52):
`RobotsTxtChecker` when `obey_robots_txt` is set, else
`BaseRobotsTxtChecker`. -/
def chooseRobotsChecker (obey_robots_txt : Bool) : RobotsCheckerKind :=
  if obey_robots_txt then RobotsCheckerKind.caching
  else RobotsCheckerKind.permissive

/-- Embedding of `Crawlwright._handle_failed_request` (crawler.py lines 134-141): when the
request's `retries` equals `max_retries`, write a `None` marker under its url
in the failed partition; otherwise increment `retries` and hand the request
to `_add_request`, i.e. `RequestQueue.add` (with its known-url dedup check).
Returns (queue state after the call, exception raised if any). -/
def handle_failed_request (max_retries : Int) (q : RequestQueue)
    (r : CrawlRequest) : RequestQueue × Option QErr :=
  if r.retries = max_retries then
    ({ q with failed := Index.set q.failed r.url none }, none)
  else
    q.add { r with retries := r.retries + 1 }

/-- The worker loop `Crawlwright.crawl` (crawler.py lines 107-125)
specialized to the scenario of the retry claim: a single worker, a
politeness checker that permits every URL (the `obey_robots_txt = False`
default installs `BaseRobotsTxtChecker`), and a renderer whose `goto` fails
on every attempt, so each popped request takes the
`except`-branch (`request_failed`; `_handle_failed_request`; `continue`).
`fuel` bounds the iterations (the loop runs `while not self.queue.empty`);
the `Nat` accumulated counts render attempts (calls to `page.goto`).
Returns the final queue and the attempt count, or the exception that
escaped the loop. -/
def crawl_all_fail (max_retries : Int) :
    Nat → RequestQueue → Nat → Except QErr (RequestQueue × Nat)
  | 0, q, attempts => Except.ok (q, attempts)
  | Nat.succ fuel, q, attempts =>
    if q.empty then Except.ok (q, attempts)
    else
      match q.pop with
      | Except.error e => Except.error e
      | Except.ok (r, q') =>
        match handle_failed_request max_retries q' r with
        | (q'', none) => crawl_all_fail max_retries fuel q'' (attempts + 1)
        | (_, some e) => Except.error e

/-! Synchronization discipline (`crawler.py` locking structure)

`Crawlwright` owns one `threading.Lock` (`self._lock`, crawler.py line 54).
The lists below record, straight from the source, each queue access a code
path performs and whether it is performed while holding that lock. -/

/-- The kinds of queue access appearing in `crawler.py`. -/
inductive QueueCall where
  | addCall
  | extendCall
  | popCall
  | failedInsertCall
deriving Repr, DecidableEq

/-- One queue access together with whether `self._lock` is held around it. -/
structure SyncedCall where
  call : QueueCall
  under_lock : Bool
deriving Repr, DecidableEq

/-- Embedding of `Crawlwright._add_request` (crawler.py lines 82-84): `queue.add` inside
`with self._lock`. -/
def add_request_calls : List SyncedCall :=
  [⟨QueueCall.addCall, true⟩]

/-- Embedding of `Crawlwright._add_requests` (crawler.py lines 86-88) and
`Crawlwright.add_requests` (lines 93-96): `queue.extend` inside
`with self._lock`. -/
def add_requests_calls : List SyncedCall :=
  [⟨QueueCall.extendCall, true⟩]

/-- One iteration of the worker loop `Crawlwright.crawl` on the render-failure
path (crawler.py lines 109-122): `self.queue.pop()` at line 110 with no lock
acquisition, then inside `_handle_failed_request` either the failed-partition
write `self.queue.failed[...] = None` (line 136, no lock) or the retry
`_add_request` (line 141, which does take the lock). -/
def crawl_iteration_calls : List SyncedCall :=
  [⟨QueueCall.popCall, false⟩, ⟨QueueCall.failedInsertCall, false⟩,
    ⟨QueueCall.addCall, true⟩]

/-! Queue operation traces

`QueueOp` enumerates the queue-mutating steps the crawler and its add APIs
can perform on the shared queue; `execOp` runs one step, with the state after
a raised exception being the state the exception left behind (the embedding's
operations return exactly that state). -/

/-- Queue-mutating steps. `failStep` is one worker-loop iteration on the
failure path: pop the oldest pending request, then `_handle_failed_request`
on it (a no-op when pending is empty, since the loop pops only after
observing the queue non-empty). -/
inductive QueueOp where
  | addOp (r : CrawlRequest)
  | extendOp (rs : List CrawlRequest)
  | popOp
  | failStep (max_retries : Int)
  | clearOp
deriving Repr

/-- Execute one queue-mutating step. -/
def execOp (q : RequestQueue) : QueueOp → RequestQueue
  | QueueOp.addOp r => (q.add r).1
  | QueueOp.extendOp rs => (q.extend rs).1
  | QueueOp.popOp =>
    match q.pop with
    | Except.ok (_, q') => q'
    | Except.error _ => q
  | QueueOp.failStep m =>
    match q.pop with
    | Except.ok (r, q') => (handle_failed_request m q' r).1
    | Except.error _ => q
  | QueueOp.clearOp => q.clear

/-- Execute a sequence of steps, oldest first. -/
def execOps (q : RequestQueue) (ops : List QueueOp) : RequestQueue :=
  ops.foldl execOp q

/-- The queue's durable-state invariant: each partition's key list is
duplicate-free, each pending entry is stored under its request's url, every
partition key is in the known-url set (the set is a superset of the union of
the partitions), and the three partitions are pairwise disjoint. -/
structure QueueInv (q : RequestQueue) : Prop where
  nodupPending : (Index.keys q.requests).Nodup
  nodupFailed : (Index.keys q.failed).Nodup
  nodupComplete : (Index.keys q.complete).Nodup
  keyIsUrl : ∀ p ∈ q.requests, p.1 = p.2.url
  pendingKnown : ∀ u ∈ Index.keys q.requests, u ∈ q.urls
  failedKnown : ∀ u ∈ Index.keys q.failed, u ∈ q.urls
  completeKnown : ∀ u ∈ Index.keys q.complete, u ∈ q.urls
  pendingFailed : ∀ u ∈ Index.keys q.requests, u ∉ Index.keys q.failed
  pendingComplete : ∀ u ∈ Index.keys q.requests, u ∉ Index.keys q.complete
  failedComplete : ∀ u ∈ Index.keys q.failed, u ∉ Index.keys q.complete

/-! Helper lemmas about the embedding -/

theorem Index.keys_append {α : Type} (l₁ l₂ : List (String × α)) :
    Index.keys (l₁ ++ l₂) = Index.keys l₁ ++ Index.keys l₂ := by
  simp [Index.keys]

theorem Index.set_fresh {α : Type} (idx : List (String × α)) (k : String)
    (v : α) (hk : k ∉ Index.keys idx) : Index.set idx k v = idx ++ [(k, v)] := by
  unfold Index.set
  rw [if_neg hk]

theorem setAdd_fresh (s : List String) (u : String) (h : u ∉ s) :
    setAdd s u = s ++ [u] := by
  unfold setAdd
  rw [if_neg h]

theorem add_preserves_inv (q : RequestQueue) (r : CrawlRequest)
    (h : QueueInv q) : QueueInv (q.add r).1 := by
  unfold RequestQueue.add
  by_cases hmem : r.url ∈ q.urls
  · rw [if_pos hmem]
    exact h
  rw [if_neg hmem]
  by_cases hval : validators_url r.url = false
  · rw [if_pos hval]
    exact h
  rw [if_neg hval]
  have hkp : r.url ∉ Index.keys q.requests := fun hc => hmem (h.pendingKnown _ hc)
  have hkf : r.url ∉ Index.keys q.failed := fun hc => hmem (h.failedKnown _ hc)
  have hkc : r.url ∉ Index.keys q.complete := fun hc => hmem (h.completeKnown _ hc)
  rw [Index.set_fresh _ _ _ hkp, setAdd_fresh _ _ hmem]
  refine ⟨?_, h.nodupFailed, h.nodupComplete, ?_, ?_, ?_, ?_, ?_, ?_,
    h.failedComplete⟩
  · rw [Index.keys_append, List.nodup_append]
    refine ⟨h.nodupPending, by simp [Index.keys], ?_⟩
    intro a ha hb
    simp [Index.keys] at hb
    subst hb
    exact hkp ha
  · intro p hp
    rcases List.mem_append.mp hp with h' | h'
    · exact h.keyIsUrl p h'
    · simp at h'
      subst h'
      rfl
  · intro u hu
    rw [Index.keys_append] at hu
    rcases List.mem_append.mp hu with h' | h'
    · exact List.mem_append.mpr (Or.inl (h.pendingKnown u h'))
    · simp [Index.keys] at h'
      subst h'
      exact List.mem_append.mpr (Or.inr (List.mem_singleton.mpr rfl))
  · intro u hu
    exact List.mem_append.mpr (Or.inl (h.failedKnown u hu))
  · intro u hu
    exact List.mem_append.mpr (Or.inl (h.completeKnown u hu))
  · intro u hu
    rw [Index.keys_append] at hu
    rcases List.mem_append.mp hu with h' | h'
    · exact h.pendingFailed u h'
    · simp [Index.keys] at h'
      subst h'
      exact hkf
  · intro u hu
    rw [Index.keys_append] at hu
    rcases List.mem_append.mp hu with h' | h'
    · exact h.pendingComplete u h'
    · simp [Index.keys] at h'
      subst h'
      exact hkc

theorem extend_preserves_inv (rs : List CrawlRequest) :
    ∀ q : RequestQueue, QueueInv q → QueueInv (q.extend rs).1 := by
  induction rs with
  | nil =>
    intro q h
    exact h
  | cons r rs ih =>
    intro q h
    have hadd := add_preserves_inv q r h
    unfold RequestQueue.extend
    rcases hq : q.add r with ⟨q', e⟩
    rw [hq] at hadd
    cases e with
    | none => exact ih q' hadd
    | some e => exact hadd

theorem tail_inv (q : RequestQueue) (k : String) (r : CrawlRequest)
    (rest : List (String × CrawlRequest)) (hq : q.requests = (k, r) :: rest)
    (h : QueueInv q) : QueueInv { q with requests := rest } := by
  have hk : Index.keys q.requests = k :: Index.keys rest := by
    rw [hq]
    simp [Index.keys]
  refine ⟨?_, h.nodupFailed, h.nodupComplete, ?_, ?_, h.failedKnown,
    h.completeKnown, ?_, ?_, h.failedComplete⟩
  · have hnd := h.nodupPending
    rw [hk, List.nodup_cons] at hnd
    exact hnd.2
  · intro p hp
    exact h.keyIsUrl p (by rw [hq]; exact List.mem_cons_of_mem _ hp)
  · intro u hu
    exact h.pendingKnown u (by rw [hk]; exact List.mem_cons_of_mem _ hu)
  · intro u hu
    exact h.pendingFailed u (by rw [hk]; exact List.mem_cons_of_mem _ hu)
  · intro u hu
    exact h.pendingComplete u (by rw [hk]; exact List.mem_cons_of_mem _ hu)

theorem handle_failed_preserves_inv (m : Int) (q : RequestQueue) (k : String)
    (r : CrawlRequest) (rest : List (String × CrawlRequest))
    (hq : q.requests = (k, r) :: rest) (h : QueueInv q) :
    QueueInv (handle_failed_request m { q with requests := rest } r).1 := by
  have hk : Index.keys q.requests = k :: Index.keys rest := by
    rw [hq]
    simp [Index.keys]
  have hkr : k = r.url := h.keyIsUrl (k, r) (by rw [hq]; exact List.mem_cons_self _ _)
  have hmem : r.url ∈ Index.keys q.requests := by
    rw [hk, ← hkr]
    exact List.mem_cons_self _ _
  have h1 : QueueInv { q with requests := rest } := tail_inv q k r rest hq h
  unfold handle_failed_request
  by_cases hret : r.retries = m
  · rw [if_pos hret]
    have hf : r.url ∉ Index.keys q.failed := h.pendingFailed _ hmem
    have hc : r.url ∉ Index.keys q.complete := h.pendingComplete _ hmem
    have hknown : r.url ∈ q.urls := h.pendingKnown _ hmem
    have hnotrest : r.url ∉ Index.keys rest := by
      have hnd := h.nodupPending
      rw [hk, List.nodup_cons] at hnd
      rw [← hkr]
      exact hnd.1
    rw [Index.set_fresh _ _ _ hf]
    refine ⟨h1.nodupPending, ?_, h1.nodupComplete, h1.keyIsUrl, h1.pendingKnown,
      ?_, h1.completeKnown, ?_, h1.pendingComplete, ?_⟩
    · rw [Index.keys_append, List.nodup_append]
      refine ⟨h.nodupFailed, by simp [Index.keys], ?_⟩
      intro a ha hb
      simp [Index.keys] at hb
      subst hb
      exact hf ha
    · intro u hu
      rw [Index.keys_append] at hu
      rcases List.mem_append.mp hu with h' | h'
      · exact h.failedKnown u h'
      · simp [Index.keys] at h'
        subst h'
        exact hknown
    · intro u hu h2
      rw [Index.keys_append] at h2
      rcases List.mem_append.mp h2 with h' | h'
      · exact h1.pendingFailed u hu h'
      · simp [Index.keys] at h'
        subst h'
        exact hnotrest hu
    · intro u hu
      rw [Index.keys_append] at hu
      rcases List.mem_append.mp hu with h' | h'
      · exact h.failedComplete u h'
      · simp [Index.keys] at h'
        subst h'
        exact hc
  · rw [if_neg hret]
    exact add_preserves_inv _ _ h1

theorem execOp_preserves_inv (q : RequestQueue) (op : QueueOp)
    (h : QueueInv q) : QueueInv (execOp q op) := by
  cases op with
  | addOp r => exact add_preserves_inv q r h
  | extendOp rs => exact extend_preserves_inv rs q h
  | popOp =>
    unfold execOp
    cases hq : q.requests with
    | nil =>
      have hpop : q.pop = Except.error QErr.emptyQueue := by
        unfold RequestQueue.pop
        rw [hq]
      rw [hpop]
      exact h
    | cons p rest =>
      obtain ⟨k, r⟩ := p
      have hpop : q.pop = Except.ok (r, { q with requests := rest }) := by
        unfold RequestQueue.pop
        rw [hq]
      rw [hpop]
      exact tail_inv q k r rest hq h
  | failStep m =>
    unfold execOp
    cases hq : q.requests with
    | nil =>
      have hpop : q.pop = Except.error QErr.emptyQueue := by
        unfold RequestQueue.pop
        rw [hq]
      rw [hpop]
      exact h
    | cons p rest =>
      obtain ⟨k, r⟩ := p
      have hpop : q.pop = Except.ok (r, { q with requests := rest }) := by
        unfold RequestQueue.pop
        rw [hq]
      rw [hpop]
      exact handle_failed_preserves_inv m q k r rest hq h
  | clearOp =>
    refine ⟨?_, ?_, ?_, ?_, ?_, ?_, ?_, ?_, ?_, ?_⟩ <;>
      simp [execOp, RequestQueue.clear, Index.keys]

theorem execOps_inv_aux (ops : List QueueOp) :
    ∀ q, QueueInv q → QueueInv (execOps q ops) := by
  induction ops with
  | nil =>
    intro q h
    exact h
  | cons op ops ih =>
    intro q h
    exact ih _ (execOp_preserves_inv q op h)

theorem init_inv : QueueInv RequestQueue.init := by
  refine ⟨?_, ?_, ?_, ?_, ?_, ?_, ?_, ?_, ?_, ?_⟩ <;>
    simp [RequestQueue.init, Index.keys]

theorem add_complete_eq (q : RequestQueue) (r : CrawlRequest) :
    (q.add r).1.complete = q.complete := by
  unfold RequestQueue.add
  by_cases hmem : r.url ∈ q.urls
  · rw [if_pos hmem]
  · rw [if_neg hmem]
    by_cases hval : validators_url r.url = false
    · rw [if_pos hval]
    · rw [if_neg hval]

theorem extend_complete_eq (rs : List CrawlRequest) :
    ∀ q : RequestQueue, (q.extend rs).1.complete = q.complete := by
  induction rs with
  | nil =>
    intro q
    rfl
  | cons r rs ih =>
    intro q
    have h1 := add_complete_eq q r
    unfold RequestQueue.extend
    rcases hq : q.add r with ⟨q', e⟩
    rw [hq] at h1
    cases e with
    | none => exact (ih q').trans h1
    | some e => exact h1

theorem handle_failed_complete_eq (m : Int) (q : RequestQueue)
    (r : CrawlRequest) : (handle_failed_request m q r).1.complete = q.complete := by
  unfold handle_failed_request
  by_cases hret : r.retries = m
  · rw [if_pos hret]
  · rw [if_neg hret]
    exact add_complete_eq q _

theorem execOp_complete (q : RequestQueue) (op : QueueOp) :
    (execOp q op).complete = q.complete ∨ (execOp q op).complete = [] := by
  cases op with
  | addOp r => exact Or.inl (add_complete_eq q r)
  | extendOp rs => exact Or.inl (extend_complete_eq rs q)
  | popOp =>
    left
    unfold execOp
    cases hq : q.requests with
    | nil =>
      have hpop : q.pop = Except.error QErr.emptyQueue := by
        unfold RequestQueue.pop
        rw [hq]
      rw [hpop]
    | cons p rest =>
      obtain ⟨k, r⟩ := p
      have hpop : q.pop = Except.ok (r, { q with requests := rest }) := by
        unfold RequestQueue.pop
        rw [hq]
      rw [hpop]
  | failStep m =>
    left
    unfold execOp
    cases hq : q.requests with
    | nil =>
      have hpop : q.pop = Except.error QErr.emptyQueue := by
        unfold RequestQueue.pop
        rw [hq]
      rw [hpop]
    | cons p rest =>
      obtain ⟨k, r⟩ := p
      have hpop : q.pop = Except.ok (r, { q with requests := rest }) := by
        unfold RequestQueue.pop
        rw [hq]
      rw [hpop]
      exact handle_failed_complete_eq m _ r
  | clearOp =>
    right
    rfl

/-! Settling the claims -/

/-- C1: against the claim, a request that fails with `retries` strictly below
`max_retries` is NOT re-rendered: the retry path hands the incremented
request back to `RequestQueue.add`, whose known-url dedup check drops it
(pop leaves the url in the known set).  Evaluating the worker loop with
`max_retries = 2` and a renderer failing on every attempt: after adding one
URL, the loop performs exactly ONE render attempt (not 3), the URL ends in
NO partition (pending, failed and complete are all empty), and only the
known-url set still holds it. -/
theorem retry_requeue_silently_dropped :
    (RequestQueue.init.add ⟨"https://example.com/a", none, 0, none⟩).2 = none ∧
    crawl_all_fail 2 10
        (RequestQueue.init.add ⟨"https://example.com/a", none, 0, none⟩).1 0 =
      Except.ok (⟨[], [], [], ["https://example.com/a"]⟩, 1) := by
  exact ⟨by decide, by rfl⟩

/-- C2: against the claim, the caching checker neither derives the
robots.txt URL (it fetches the queried page URL itself, which differs from
`get_robots_txt_url` of that URL) nor ever reuses the cache for a
same-origin URL: the cache is written under the bare netloc but looked up
under the full URL, so a second query for the same origin fetches again. -/
theorem robots_cache_never_reused :
    (RobotsTxtChecker.can_fetch constNet allowAllProtego ⟨[]⟩
        "https://example.com/a" "crawlwright").2.2 = ["https://example.com/a"] ∧
    get_robots_txt_url "https://example.com/a" =
      "https://example.com/robots.txt" ∧
    "https://example.com/a" ≠ get_robots_txt_url "https://example.com/a" ∧
    (RobotsTxtChecker.can_fetch constNet allowAllProtego
        (RobotsTxtChecker.can_fetch constNet allowAllProtego ⟨[]⟩
          "https://example.com/a" "crawlwright").2.1
        "https://example.com/b" "crawlwright").2.2 = ["https://example.com/b"] := by
  decide

/-- C3: counterexample to the claim as stated — after `add` of a valid URL
followed by `pop`, the popped URL is still in the in-memory known-url set
while `get_all_urls` (the union of the three partitions) is empty, so the
set does NOT equal the union after every queue operation. -/
theorem urls_not_union_after_pop :
    ("https://example.com/a" ∈
      (execOps RequestQueue.init
        [QueueOp.addOp ⟨"https://example.com/a", none, 0, none⟩,
          QueueOp.popOp]).urls) ∧
    (execOps RequestQueue.init
      [QueueOp.addOp ⟨"https://example.com/a", none, 0, none⟩,
        QueueOp.popOp]).get_all_urls = [] := by
  decide

/-- C3 (amended): after every sequence of queue operations (add, extend, pop,
clear, and the worker loop's retry/terminal failure step) starting from a
state satisfying the invariant, the known-url set CONTAINS every URL stored
in the pending, failed and complete partitions (it is a superset of their
union — equality fails after `pop`, which leaves the popped URL in the set),
and any given URL is present in at most one of the three partitions. -/
theorem queue_partition_invariant (q : RequestQueue) (ops : List QueueOp)
    (h : QueueInv q) : QueueInv (execOps q ops) :=
  execOps_inv_aux ops q h

/-- Witness for the amended C3 at a concrete run exercising add, a failure
step that reaches the failed partition, pop and clear. -/
theorem queue_partition_invariant_witness :
    QueueInv RequestQueue.init ∧
    QueueInv (execOps RequestQueue.init
      [QueueOp.addOp ⟨"https://example.com/a", none, 0, none⟩,
        QueueOp.addOp ⟨"https://example.com/b", none, 0, none⟩,
        QueueOp.failStep 0, QueueOp.popOp, QueueOp.clearOp]) :=
  ⟨init_inv, queue_partition_invariant RequestQueue.init
    [QueueOp.addOp ⟨"https://example.com/a", none, 0, none⟩,
      QueueOp.addOp ⟨"https://example.com/b", none, 0, none⟩,
      QueueOp.failStep 0, QueueOp.popOp, QueueOp.clearOp] init_inv⟩

/-- C4: against the claim, the mutations are not all under one shared
mutual-exclusion discipline: the worker loop pops (and, at retry exhaustion,
writes the failed partition) without acquiring `self._lock`, while the
add/extend entry points do acquire it.  The lists record, per code path,
each queue access and whether the lock is held around it. -/
theorem worker_pop_outside_lock :
    (SyncedCall.mk QueueCall.popCall false) ∈ crawl_iteration_calls ∧
    crawl_iteration_calls.all (fun c => c.under_lock) = false ∧
    add_request_calls.all (fun c => c.under_lock) = true ∧
    add_requests_calls.all (fun c => c.under_lock) = true := by
  decide

/-- C5: `pop` on a queue whose pending partition is empty fails with the
empty-queue error; and after sequential `add A`, `add B` of two distinct
valid URLs on an empty queue, the first `pop` returns A and the second
returns B (strict FIFO). -/
theorem pop_empty_error_and_fifo (q : RequestQueue) (A B : CrawlRequest)
    (hq : q.requests = []) (hA : validators_url A.url = true)
    (hB : validators_url B.url = true) (hne : A.url ≠ B.url) :
    q.pop = Except.error QErr.emptyQueue ∧
    ∃ q3 q4,
      ((RequestQueue.init.add A).1.add B).1.pop = Except.ok (A, q3) ∧
      q3.pop = Except.ok (B, q4) ∧ q4.requests = [] := by
  constructor
  · unfold RequestQueue.pop
    rw [hq]
  · have h1 : (RequestQueue.init.add A).1 = ⟨[(A.url, A)], [], [], [A.url]⟩ := by
      simp [RequestQueue.add, RequestQueue.init, Index.set, setAdd, Index.keys,
        hA]
    have h2 : ((RequestQueue.init.add A).1.add B).1 =
        ⟨[(A.url, A), (B.url, B)], [], [], [A.url, B.url]⟩ := by
      rw [h1]
      simp [RequestQueue.add, Index.set, setAdd, Index.keys, hB, Ne.symm hne]
    refine ⟨⟨[(B.url, B)], [], [], [A.url, B.url]⟩,
      ⟨[], [], [], [A.url, B.url]⟩, ?_, rfl, rfl⟩
    rw [h2]
    rfl

/-- Witness for C5 at two concrete URLs. -/
theorem pop_empty_error_and_fifo_witness :
    RequestQueue.init.requests = [] ∧
    validators_url "https://a.com/" = true ∧
    validators_url "https://b.com/" = true ∧
    "https://a.com/" ≠ "https://b.com/" ∧
    (RequestQueue.init.pop = Except.error QErr.emptyQueue ∧
      ∃ q3 q4,
        ((RequestQueue.init.add ⟨"https://a.com/", none, 0, none⟩).1.add
            ⟨"https://b.com/", none, 0, none⟩).1.pop =
          Except.ok (⟨"https://a.com/", none, 0, none⟩, q3) ∧
        q3.pop = Except.ok (⟨"https://b.com/", none, 0, none⟩, q4) ∧
        q4.requests = []) :=
  ⟨rfl, by decide, by decide, by decide,
    pop_empty_error_and_fifo RequestQueue.init
      ⟨"https://a.com/", none, 0, none⟩ ⟨"https://b.com/", none, 0, none⟩
      rfl (by decide) (by decide) (by decide)⟩

/-- C6: `add` of a request whose url is not yet known and is malformed
raises `ValidationError` and leaves the queue state exactly unchanged (the
validation happens before any partition or the known-url set is touched). -/
theorem add_invalid_rejected (q : RequestQueue) (r : CrawlRequest)
    (hfresh : r.url ∉ q.urls) (hbad : validators_url r.url = false) :
    q.add r = (q, some QErr.validation) := by
  unfold RequestQueue.add
  rw [if_neg hfresh, if_pos hbad]

/-- Witness for C6 at the spec's `"not-a-url"` input on an empty queue. -/
theorem add_invalid_rejected_witness :
    ("not-a-url" ∉ RequestQueue.init.urls) ∧
    validators_url "not-a-url" = false ∧
    RequestQueue.init.add ⟨"not-a-url", none, 0, none⟩ =
      (RequestQueue.init, some QErr.validation) :=
  ⟨by decide, by decide,
    add_invalid_rejected RequestQueue.init ⟨"not-a-url", none, 0, none⟩
      (by decide) (by decide)⟩

/-- C7: adding the same URL twice (the second time with the same or a
different label) leaves the queue size at 1, the second `add` is a no-op
returning the unchanged state, and the record retained under the URL is the
first request's. -/
theorem add_dedup_idempotent (r r' : CrawlRequest) (hsame : r'.url = r.url)
    (hvalid : validators_url r.url = true) :
    (RequestQueue.init.add r).1.add r' = ((RequestQueue.init.add r).1, none) ∧
    (RequestQueue.init.add r).1.size = 1 ∧
    Index.get (RequestQueue.init.add r).1.requests r.url = some r := by
  have h1 : (RequestQueue.init.add r).1 = ⟨[(r.url, r)], [], [], [r.url]⟩ := by
    simp [RequestQueue.add, RequestQueue.init, Index.set, setAdd, Index.keys,
      hvalid]
  rw [h1]
  refine ⟨?_, rfl, ?_⟩
  · unfold RequestQueue.add
    have hmem : r'.url ∈ [r.url] := by
      rw [hsame]
      exact List.mem_singleton.mpr rfl
    rw [if_pos hmem]
  · simp [Index.get]

/-- Witness for C7: the same URL added with two different labels. -/
theorem add_dedup_idempotent_witness :
    validators_url "https://a.com/" = true ∧
    ((RequestQueue.init.add ⟨"https://a.com/", some "first", 0, none⟩).1.add
        ⟨"https://a.com/", some "second", 0, none⟩ =
      ((RequestQueue.init.add ⟨"https://a.com/", some "first", 0, none⟩).1,
        none) ∧
    (RequestQueue.init.add ⟨"https://a.com/", some "first", 0, none⟩).1.size
      = 1 ∧
    Index.get
      (RequestQueue.init.add ⟨"https://a.com/", some "first", 0, none⟩).1.requests
      "https://a.com/" = some ⟨"https://a.com/", some "first", 0, none⟩) :=
  ⟨by decide,
    add_dedup_idempotent ⟨"https://a.com/", some "first", 0, none⟩
      ⟨"https://a.com/", some "second", 0, none⟩ rfl (by decide)⟩

/-- C8: counterexample to the claim as stated — construction with
`max_retries = -1` (and a valid concurrency) succeeds: no validator
constrains `max_retries`, so construction does NOT fail for negative
values. -/
theorem negative_max_retries_accepted :
    CrawlerOptions.validate 5 (30, 1) (-1) false =
      Except.ok ⟨5, (30, 1), -1, false⟩ := by
  rfl

/-- C8 (amended): configuration is validated once at construction; any
concurrency value below 1 is a fatal `ConfigurationError`, and with
concurrency at least 1 construction succeeds whatever the other fields are —
in particular `max_retries` is NOT validated, so negative values are
accepted. -/
theorem options_concurrency_validated (c : Int) (rl : Int × Int) (m : Int)
    (o : Bool) :
    (c < 1 →
      CrawlerOptions.validate c rl m o =
        Except.error ConfigError.configuration) ∧
    (1 ≤ c → CrawlerOptions.validate c rl m o = Except.ok ⟨c, rl, m, o⟩) := by
  constructor
  · intro h
    unfold CrawlerOptions.validate
    rw [if_pos h]
  · intro h
    unfold CrawlerOptions.validate
    rw [if_neg (not_lt.mpr h)]

/-- Witness for the amended C8: concurrency 0 is rejected; concurrency 5
with `max_retries = -1` is accepted. -/
theorem options_concurrency_validated_witness :
    ((0 : Int) < 1) ∧ ((1 : Int) ≤ 5) ∧
    CrawlerOptions.validate 0 (30, 1) 3 false =
      Except.error ConfigError.configuration ∧
    CrawlerOptions.validate 5 (30, 1) (-1) false =
      Except.ok ⟨5, (30, 1), -1, false⟩ :=
  ⟨by decide, by decide,
    (options_concurrency_validated 0 (30, 1) 3 false).1 (by decide),
    (options_concurrency_validated 5 (30, 1) (-1) false).2 (by decide)⟩

/-- C9: with `obey_robots_txt = false` the crawler installs the permissive
checker, and the permissive checker's `can_fetch` returns `true` for every
URL and user agent, leaves its state untouched and performs no network
fetch (and hence no caching). -/
theorem permissive_checker_always_allows (c : BaseRobotsTxtChecker)
    (url user_agent : String) :
    BaseRobotsTxtChecker.can_fetch c url user_agent = (true, c, []) ∧
    chooseRobotsChecker false = RobotsCheckerKind.permissive :=
  ⟨rfl, rfl⟩

/-- C10: no queue operation of the crawler or the queue ever inserts an
entry into the complete partition — over any sequence of adds, extends,
pops, worker-loop failure steps and clears, a complete partition that
starts empty stays empty. -/
theorem complete_stays_empty (q : RequestQueue) (ops : List QueueOp)
    (h : q.complete = []) : (execOps q ops).complete = [] := by
  induction ops generalizing q with
  | nil => exact h
  | cons op ops ih =>
    show (execOps (execOp q op) ops).complete = []
    apply ih
    rcases execOp_complete q op with h' | h'
    · rw [h', h]
    · exact h'

/-- Witness for C10 at a concrete run from the fresh queue. -/
theorem complete_stays_empty_witness :
    RequestQueue.init.complete = [] ∧
    (execOps RequestQueue.init
      [QueueOp.addOp ⟨"https://example.com/a", none, 0, none⟩,
        QueueOp.failStep 0, QueueOp.popOp, QueueOp.clearOp]).complete = [] :=
  ⟨rfl, complete_stays_empty RequestQueue.init
    [QueueOp.addOp ⟨"https://example.com/a", none, 0, none⟩,
      QueueOp.failStep 0, QueueOp.popOp, QueueOp.clearOp] rfl⟩
